import Mathlib

/-!
Verification of the ACTIV backend (src/server.js and its near-duplicate
variants): a shallow embedding of the two core components — the Plaid
link-product negotiator (cleanProducts, parseInvalidProducts,
linkTokenCreateSmart) and the financial KPI aggregator (buildSummary) —
together with the per-user token store.

Numbers are modelled as exact rationals (the JS code performs ordinary
arithmetic on finite doubles; the properties at stake are structural).
JS `Math.round(x)` is `⌊x + 1/2⌋`, so `money` rounds half up to cents.
Nullable JS values are modelled with `Option`.
-/

namespace Activ

/-- JS helper `sum(arr)` from src/server.js line 159:
`(arr||[]).reduce((a,b)=>a+(+b||0),0)` — a left fold of addition over the
list (elements are already numbers in every call site we model). -/
def sumQ (l : List ℚ) : ℚ := l.foldl (fun a b => a + b) 0

/-- JS helper `money(n)` from src/server.js line 160:
`Math.round((+n||0)*100)/100`, i.e. round to cents, halves away from
negative infinity (JS `Math.round(x) = ⌊x + 0.5⌋`). -/
def money (q : ℚ) : ℚ := ((⌊q * 100 + 1/2⌋ : ℤ) : ℚ) / 100

/-- A rational is a whole number of cents: rounding it to cents changes
nothing. This formalises the spec phrase "rounded to 2 decimal places". -/
def twoDecimal (q : ℚ) : Prop := money q = q

/-- JS `Math.max(0, Math.min(1, x))` as used for the savings rate. -/
def clamp01 (x : ℚ) : ℚ := max 0 (min 1 x)

/-- The `balances` object of a Plaid account: both figures may be null. -/
structure Balances where
  available : Option ℚ
  current : Option ℚ
deriving DecidableEq

/-- One Plaid account as consumed by buildSummary. `acctType` models the
JS field `type` (a Lean keyword), `subtype` models `subtype`; both may be
absent in the raw JSON, hence `Option`. -/
structure Account where
  acctType : Option String
  subtype : Option String
  balances : Balances
deriving DecidableEq

/-- `a.balances?.available ?? a.balances?.current ?? 0` -/
def balVal (a : Account) : ℚ := a.balances.available.getD (a.balances.current.getD 0)

/-- One credit-card liability: `x.balance?.current`. -/
structure CreditLiab where
  balance_current : Option ℚ
deriving DecidableEq

/-- One student-loan liability: `x.outstanding_balance`. -/
structure StudentLiab where
  outstanding_balance : Option ℚ
deriving DecidableEq

/-- One mortgage liability: `x.principal_balance`. -/
structure MortgageLiab where
  principal_balance : Option ℚ
deriving DecidableEq

/-- One auto-loan liability: `x.outstanding_balance`. -/
structure AutoLiab where
  outstanding_balance : Option ℚ
deriving DecidableEq

/-- The `liab.liabilities` object; each sub-list may be null
(`L.credit || []`, `L.student ?? []`, ...). -/
structure Liabilities where
  credit : Option (List CreditLiab)
  student : Option (List StudentLiab)
  mortgage : Option (List MortgageLiab)
  auto : Option (List AutoLiab)
deriving DecidableEq

/-- A Plaid security: id plus optional close price and price. -/
structure Security where
  security_id : String
  close_price : Option ℚ
  price : Option ℚ
deriving DecidableEq

/-- A Plaid holding. `institution_value` is `some` exactly when the JS
check `typeof h.institution_value === 'number'` succeeds. -/
structure Holding where
  institution_value : Option ℚ
  security_id : String
  quantity : Option ℚ
deriving DecidableEq

/-- The investments fetch result when `inv.holdings && inv.securities`
are both present (absent otherwise, modelled by `Option InvData`). -/
structure InvData where
  holdings : List Holding
  securities : List Security
deriving DecidableEq

/-- One Plaid transaction: signed `amount`, merchant `name`, `category`
tag list (the last two are only used by the budget-split variant). -/
structure Tx where
  amount : ℚ
  name : String
  category : List String
deriving DecidableEq

/-- The fixed KPI record assembled at src/server.js lines 255-259. -/
structure KPIs where
  netWorth : ℚ
  totalCash : ℚ
  checking : ℚ
  savings : ℚ
  cashOther : ℚ
  totalInvestments : ℚ
  totalLiabilities : ℚ
  income30 : ℚ
  spend30 : ℚ
  netCashFlow : ℚ
  monthlySpend : ℚ
  savingsRate : ℚ
  runwayMonths : ℚ
deriving DecidableEq

/-- Accounts list: `(acc && acc.accounts) || []` (src/server.js line 175). -/
def accountsOf (acc : Option (List Account)) : List Account := acc.getD []

/-- `checking` (src/server.js lines 176-178, 184): depository accounts of
subtype checking, balances summed and rounded. -/
def checkingOf (acc : Option (List Account)) : ℚ :=
  money (sumQ ((((accountsOf acc).filter (fun a => a.acctType == some "depository")).filter
    (fun a => a.subtype == some "checking")).map balVal))

/-- `savings` (src/server.js lines 179-180, 185). -/
def savingsOf (acc : Option (List Account)) : ℚ :=
  money (sumQ ((((accountsOf acc).filter (fun a => a.acctType == some "depository")).filter
    (fun a => a.subtype == some "savings")).map balVal))

/-- `cashOther` (src/server.js lines 181-182, 186): depository accounts
whose subtype is neither checking nor savings. -/
def cashOtherOf (acc : Option (List Account)) : ℚ :=
  money (sumQ ((((accountsOf acc).filter (fun a => a.acctType == some "depository")).filter
    (fun a => !(a.subtype == some "checking") && !(a.subtype == some "savings"))).map balVal))

/-- `totalCash = money(checking + savings + cashOther)` (line 187). -/
def totalCashOf (acc : Option (List Account)) : ℚ :=
  money (checkingOf acc + savingsOf acc + cashOtherOf acc)

/-- `totalLiabilities` (src/server.js lines 190-198): sum of credit-card
current balances, student outstanding balances, mortgage principal
balances and auto outstanding balances; 0 when the fetch was null. -/
def totalLiabilitiesOf (liab : Option Liabilities) : ℚ :=
  match liab with
  | none => 0
  | some L =>
      money (sumQ ((L.credit.getD []).map (fun x => x.balance_current.getD 0)) +
        sumQ ((L.student.getD []).map (fun x => x.outstanding_balance.getD 0)) +
        sumQ ((L.mortgage.getD []).map (fun x => x.principal_balance.getD 0)) +
        sumQ ((L.auto.getD []).map (fun x => x.outstanding_balance.getD 0)))

/-- Per-holding value (src/server.js lines 206-211): the reported
`institution_value` when numeric, otherwise quantity times the price of
the security found in the map built by `forEach` over `securities`
(later entries overwrite earlier ones, hence the reversed search);
`px = (sec && (sec.close_price ?? sec.price)) || 0`. -/
def holdingValue (securities : List Security) (h : Holding) : ℚ :=
  match h.institution_value with
  | some v => v
  | none =>
      let px : ℚ :=
        match securities.reverse.find? (fun s => s.security_id == h.security_id) with
        | none => 0
        | some s =>
            match s.close_price with
            | some c => c
            | none => s.price.getD 0
      (h.quantity.getD 0) * px

/-- `totalInvestments` (src/server.js lines 201-212). -/
def totalInvestmentsOf (inv : Option InvData) : ℚ :=
  match inv with
  | none => 0
  | some I => money (sumQ (I.holdings.map (fun h => holdingValue I.securities h)))

/-- Naive income classification (src/server.js line 219): negative
amounts, negated, summed and rounded. -/
def naiveIncome30 (t : List Tx) : ℚ :=
  money (sumQ ((t.filter (fun x => decide (x.amount < 0))).map (fun x => -x.amount)))

/-- Naive spend classification (src/server.js line 220): positive
amounts summed and rounded. -/
def naiveSpend30 (t : List Tx) : ℚ :=
  money (sumQ ((t.filter (fun x => decide (0 < x.amount))).map (fun x => x.amount)))

/-- Raw signed sum of all amounts, `sum(t.map(x=>x.amount))` (line 222). -/
def rawSum30 (t : List Tx) : ℚ := sumQ (t.map (fun x => x.amount))

/-- `income30` after the sign-disambiguation pass (src/server.js lines
219-226): flipped to the positive-amount sum exactly when the naive
income is below the naive spend and the raw signed sum is negative. -/
def txIncome30 (t : List Tx) : ℚ :=
  if naiveIncome30 t < naiveSpend30 t ∧ rawSum30 t < 0 then
    money (sumQ ((t.filter (fun x => decide (0 < x.amount))).map (fun x => x.amount)))
  else naiveIncome30 t

/-- `spend30` after the sign-disambiguation pass (lines 219-226). -/
def txSpend30 (t : List Tx) : ℚ :=
  if naiveIncome30 t < naiveSpend30 t ∧ rawSum30 t < 0 then
    money (sumQ ((t.filter (fun x => decide (x.amount < 0))).map (fun x => -x.amount)))
  else naiveSpend30 t

/-- `netCashFlow = money(income30 - spend30)` (line 227). -/
def txNetCashFlow (t : List Tx) : ℚ := money (txIncome30 t - txSpend30 t)

/-- `monthlySpend = spend30 || 2000` (line 228): 0 is falsy in JS. -/
def txMonthlySpend (t : List Tx) : ℚ := if txSpend30 t = 0 then 2000 else txSpend30 t

/-- `savingsRate = income30 ? Math.max(0, Math.min(1, netCashFlow / income30)) : 0`
(line 229). -/
def txSavingsRate (t : List Tx) : ℚ :=
  if txIncome30 t = 0 then 0 else clamp01 (txNetCashFlow t / txIncome30 t)

/-- `income30` field: 0 when the transactions fetch was null (line 215). -/
def income30Of (tx : Option (List Tx)) : ℚ :=
  match tx with
  | none => 0
  | some t => txIncome30 t

/-- `spend30` field. -/
def spend30Of (tx : Option (List Tx)) : ℚ :=
  match tx with
  | none => 0
  | some t => txSpend30 t

/-- `netCashFlow` field: 0 in the missing-transactions branch (line 233). -/
def netCashFlowOf (tx : Option (List Tx)) : ℚ :=
  match tx with
  | none => 0
  | some t => txNetCashFlow t

/-- `monthlySpend` field: the fixed 2000 fallback when the transactions
fetch was null (line 231). -/
def monthlySpendOf (tx : Option (List Tx)) : ℚ :=
  match tx with
  | none => 2000
  | some t => txMonthlySpend t

/-- `savingsRate` field: the fixed 0.20 fallback when the transactions
fetch was null (line 232). -/
def savingsRateOf (tx : Option (List Tx)) : ℚ :=
  match tx with
  | none => 0.20
  | some t => txSavingsRate t

/-- `runwayMonths = monthlySpend ? money(totalCash / monthlySpend) : 0`
(line 237). -/
def runwayMonthsOf (acc : Option (List Account)) (tx : Option (List Tx)) : ℚ :=
  if monthlySpendOf tx = 0 then 0 else money (totalCashOf acc / monthlySpendOf tx)

/-- `netWorth = money(totalCash + totalInvestments - totalLiabilities)`
(line 240). -/
def netWorthOf (acc : Option (List Account)) (liab : Option Liabilities)
    (inv : Option InvData) : ℚ :=
  money (totalCashOf acc + totalInvestmentsOf inv - totalLiabilitiesOf liab)

/-- The KPI computation of `buildSummary` (src/server.js lines 163-261)
after the four independently nullable fetches have resolved; the spec
calls this `computeKPIReport`. -/
def buildSummaryKpis (acc : Option (List Account)) (liab : Option Liabilities)
    (inv : Option InvData) (tx : Option (List Tx)) : KPIs :=
  { netWorth := netWorthOf acc liab inv
    totalCash := totalCashOf acc
    checking := checkingOf acc
    savings := savingsOf acc
    cashOther := cashOtherOf acc
    totalInvestments := totalInvestmentsOf inv
    totalLiabilities := totalLiabilitiesOf liab
    income30 := income30Of tx
    spend30 := spend30Of tx
    netCashFlow := netCashFlowOf tx
    monthlySpend := monthlySpendOf tx
    savingsRate := savingsRateOf tx
    runwayMonths := runwayMonthsOf acc tx }

/-! ### Link-product negotiator (src/server.js lines 24-28, 84-120) -/

/-- The fixed known product vocabulary, src/server.js lines 24-27. -/
def VALID_PRODUCTS : List String :=
  ["auth", "transactions", "identity", "assets", "investments",
   "liabilities", "income", "payment_initiation", "transfer", "signal", "credit_details"]

/-- The preferred product list, src/server.js line 28. -/
def PREFERRED_PRODUCTS : List String :=
  ["transactions", "auth", "identity", "liabilities", "investments"]

/-- JS whitespace test for the characters `String.prototype.trim` strips
(restricted to the ASCII whitespace that can occur in our inputs). -/
def isWsChar (c : Char) : Bool := c = ' ' || c = '\t' || c = '\n' || c = '\r'

/-- Strip leading and trailing whitespace from a character list. -/
def trimChars (l : List Char) : List Char :=
  ((l.dropWhile isWsChar).reverse.dropWhile isWsChar).reverse

/-- JS `String(s).trim().toLowerCase()` (ASCII lowering, which covers the
product-name domain). -/
def jsTrimLower (s : String) : String :=
  String.mk ((trimChars s.data).map Char.toLower)

/-- JS truthiness fallback `a || d` for an optional string: null,
undefined and the empty string all fall through to the default. -/
def jsOrStr (a : Option String) (d : String) : String :=
  match a with
  | some s => if s = "" then d else s
  | none => d

/-- `cleanProducts(list)` (src/server.js lines 84-88): default to the
preferred list when the argument is null, trim and lower-case every
entry, and keep only members of the fixed vocabulary. -/
def cleanProducts (list : Option (List String)) : List String :=
  ((list.getD PREFERRED_PRODUCTS).map jsTrimLower).filter
    (fun p => VALID_PRODUCTS.contains p)

/-- A provider rejection as thrown by `plaidPost`: the fields
`linkTokenCreateSmart` and `parseInvalidProducts` read, each possibly
absent. -/
structure Rejection where
  error_code : Option String
  error : Option String
  error_message : Option String
deriving DecidableEq

/-- `e?.error_code || e?.error || ''` (src/server.js line 103). -/
def errCode (e : Rejection) : String := jsOrStr e.error_code (jsOrStr e.error "")

/-- Capture of the regex `\[([^\]]+)\]` starting at a `[` that has
already been consumed: the characters up to the first following `]`,
or none when no `]` remains. -/
def takeUntilRB : List Char → Option (List Char)
  | [] => none
  | c :: cs => if c = ']' then some [] else (takeUntilRB cs).map (fun t => c :: t)

/-- Leftmost match of the regex `\[([^\]]+)\]` over a character list:
at each `[`, the capture runs to the first following `]` and must be
non-empty; an empty capture makes the regex resume at later positions. -/
def findBracket : List Char → Option (List Char)
  | [] => none
  | c :: cs =>
      if c = '[' then
        match takeUntilRB cs with
        | some cap => if cap.isEmpty then findBracket cs else some cap
        | none => none
      else findBracket cs

/-- Split a character list at every comma, as JS `split(',')`. -/
def splitComma : List Char → List (List Char)
  | [] => [[]]
  | c :: t =>
      if c = ',' then [] :: splitComma t
      else
        match splitComma t with
        | [] => [[c]]
        | h :: r => (c :: h) :: r

/-- `parseInvalidProducts(err)` (src/server.js lines 89-93): match
`\[([^\]]+)\]` against `err?.error_message || ''`; on failure return the
empty list, otherwise split the capture on commas and trim/lower-case
each piece. -/
def parseInvalidProducts (e : Rejection) : List String :=
  match findBracket (jsOrStr e.error_message "").data with
  | none => []
  | some cap => (splitComma cap).map (fun cs => String.mk ((trimChars cs).map Char.toLower))

/-- A provider response to one `/link/token/create` request: success, or
a thrown rejection. -/
inductive Resp where
  | ok
  | err (e : Rejection)
deriving DecidableEq

/-- Outcome of the `while (products.length)` loop of
`linkTokenCreateSmart`: returned successfully with the products used,
broke out of the loop with the next attempt index, threw a rejection,
or ran beyond the given fuel bound (the JS loop has no bound). -/
inductive LoopOut where
  | success (used : List String)
  | loopExit (k : Nat)
  | propagate (e : Rejection)
  | outOfFuel (products : List String)
deriving DecidableEq

/-- The attempt loop of `linkTokenCreateSmart` (src/server.js lines
97-117), indexed by fuel. The oracle maps an attempt index and the
product list of that request to the provider response; the first result
component records every product list actually sent to the provider. -/
def negotiateGo (oracle : Nat → List String → Resp) :
    Nat → Nat → List String → List (List String) × LoopOut
  | 0, _, products => ([], LoopOut.outOfFuel products)
  | fuel + 1, k, products =>
      if products.isEmpty then ([], LoopOut.loopExit k)
      else
        match oracle k products with
        | Resp.ok => ([products], LoopOut.success products)
        | Resp.err e =>
            let code := errCode e
            if code = "INVALID_PRODUCT" then
              let bad := parseInvalidProducts e
              let products2 := products.filter (fun p => !(bad.contains p))
              if products2.isEmpty then ([products], LoopOut.loopExit (k + 1))
              else
                let r := negotiateGo oracle fuel (k + 1) products2
                (products :: r.1, r.2)
            else if code = "PRODUCTS_NOT_SUPPORTED" ∨ code = "PRODUCTS_NOT_ENABLED" then
              let products2 := ["transactions", "auth"].filter (fun p => products.contains p)
              let products3 := if products2.isEmpty then ["transactions"] else products2
              let r := negotiateGo oracle fuel (k + 1) products3
              (products :: r.1, r.2)
            else ([products], LoopOut.propagate e)

/-- Final outcome of `linkTokenCreateSmart`: success with the products
granted, a propagated rejection, or divergence (the unbounded JS loop
outran every finite fuel while holding the recorded product list). -/
inductive NegoResult where
  | success (used : List String)
  | propagate (e : Rejection)
  | diverged (products : List String)
deriving DecidableEq

/-- The initial product list of `linkTokenCreateSmart` (src/server.js
lines 95-96): sanitize, then substitute the safe default when empty. -/
def initialProducts (prods : Option (List String)) : List String :=
  let p0 := cleanProducts prods
  if p0.isEmpty then ["transactions"] else p0

/-- `linkTokenCreateSmart(baseReq, prods)` (src/server.js lines 94-120):
run the attempt loop from the sanitized product list; when the loop is
abandoned, issue one last request with only the safe default product and
propagate whatever the provider returns. The first component lists every
product list sent to the provider, in order. -/
def linkTokenCreateSmart (oracle : Nat → List String → Resp) (fuel : Nat)
    (prods : Option (List String)) : List (List String) × NegoResult :=
  let r := negotiateGo oracle fuel 0 (initialProducts prods)
  match r.2 with
  | LoopOut.success used => (r.1, NegoResult.success used)
  | LoopOut.propagate e => (r.1, NegoResult.propagate e)
  | LoopOut.outOfFuel ps => (r.1, NegoResult.diverged ps)
  | LoopOut.loopExit k =>
      match oracle k ["transactions"] with
      | Resp.ok => (r.1 ++ [["transactions"]], NegoResult.success ["transactions"])
      | Resp.err e => (r.1 ++ [["transactions"]], NegoResult.propagate e)

/-! ### Per-user token store (src/server.js lines 43, 396-405, 514-532,
1043-1069). The memory map and the Postgres table keyed by `user_id`
both realise a partial map from user id to access token. -/

/-- The token store: userId to access token (`tokens` map / `tokens`
table). -/
def TokenStore : Type := String → Option String

/-- `getToken(userId)` / `tokens.get(userId)`. -/
def getToken (store : TokenStore) (userId : String) : Option String := store userId

/-- `setToken(userId, token)` / `tokens.set(userId, token)` (upsert on
the single key `userId`). -/
def setToken (store : TokenStore) (userId : String) (tok : String) : TokenStore :=
  fun v => if v = userId then some tok else store v

/-- `deleteToken(userId)` / `tokens.delete(userId)`. -/
def deleteToken (store : TokenStore) (userId : String) : TokenStore :=
  fun v => if v = userId then none else store v

/-- Store effect of the `/plaid/exchange_public_token` handler
(src/server.js lines 396-405): after a successful upstream exchange the
access token is stored for the resolved user id. -/
def exchangeHandlerStore (store : TokenStore) (userId : String) (accessToken : String) :
    TokenStore :=
  setToken store userId accessToken

/-- Store effect of the `/plaid/unlink` handler (src/server.js lines
514-524): nothing stored means nothing to do; otherwise the entry is
removed only when the upstream `/item/remove` call succeeded
(`remoteOk`), since a thrown rejection skips the delete. -/
def unlinkHandlerStore (store : TokenStore) (userId : String) (remoteOk : Bool) :
    TokenStore :=
  match getToken store userId with
  | none => store
  | some _ => if remoteOk then deleteToken store userId else store

/-- Store effect of the `/user/delete` handler (src/server.js lines
527-532): unconditionally delete the user's entry. -/
def userDeleteHandlerStore (store : TokenStore) (userId : String) : TokenStore :=
  deleteToken store userId

/-! ### Budget split (variant feature; spec section 4.2) -/

/-- Is the needle a contiguous substring of the haystack (prefix of some
suffix)? Plain executable containment over character lists. -/
def isPrefB : List Char → List Char → Bool
  | [], _ => true
  | _ :: _, [] => false
  | a :: as, b :: bs => a = b && isPrefB as bs

/-- Substring containment over character lists. -/
def isInfB (n : List Char) : List Char → Bool
  | [] => isPrefB n []
  | c :: t => isPrefB n (c :: t) || isInfB n t

/-- Modelled from the spec: keyword match for the budget split. The
budget-split variant is not present under src/; per spec section 4.2 a
transaction matches a keyword list when some keyword occurs in the
transaction's merchant name or in one of its category tags. -/
def matchesAny (kws : List String) (t : Tx) : Bool :=
  kws.any (fun k => isInfB k.data t.name.data || t.category.any (fun c => isInfB k.data c.data))

/-- Modelled from the spec: Needs bucket sum — amounts of transactions
matching the needs keyword list. Buckets are disjoint, in the listed
priority order. -/
def bucketNeeds (nk wk sk : List String) (txs : List Tx) : ℚ :=
  sumQ ((txs.filter (fun t => matchesAny nk t)).map (fun t => t.amount))

/-- Modelled from the spec: Wants bucket sum (transactions not already
classified as Needs). -/
def bucketWants (nk wk sk : List String) (txs : List Tx) : ℚ :=
  sumQ ((txs.filter (fun t => !matchesAny nk t && matchesAny wk t)).map (fun t => t.amount))

/-- Modelled from the spec: Savings bucket sum (transactions not already
classified as Needs or Wants). -/
def bucketSavings (nk wk sk : List String) (txs : List Tx) : ℚ :=
  sumQ ((txs.filter (fun t => !matchesAny nk t && !matchesAny wk t && matchesAny sk t)).map
    (fun t => t.amount))

/-- Modelled from the spec: the classified total — the sum of the three
buckets. -/
def classifiedTotal (nk wk sk : List String) (txs : List Tx) : ℚ :=
  bucketNeeds nk wk sk txs + bucketWants nk wk sk txs + bucketSavings nk wk sk txs

/-- Modelled from the spec: the denominator for the percentages, which
defaults to 1 to avoid division by zero when nothing was classified. -/
def budgetDenom (nk wk sk : List String) (txs : List Tx) : ℚ :=
  if classifiedTotal nk wk sk txs = 0 then 1 else classifiedTotal nk wk sk txs

/-- The three reported percentages of the budget split. -/
structure BudgetSplit where
  needsPct : ℚ
  wantsPct : ℚ
  savingsPct : ℚ
deriving DecidableEq

/-- Modelled from the spec: the budget-split report — each bucket as a
percentage of the classified total. -/
def budgetSplit (nk wk sk : List String) (txs : List Tx) : BudgetSplit :=
  { needsPct := 100 * bucketNeeds nk wk sk txs / budgetDenom nk wk sk txs
    wantsPct := 100 * bucketWants nk wk sk txs / budgetDenom nk wk sk txs
    savingsPct := 100 * bucketSavings nk wk sk txs / budgetDenom nk wk sk txs }

/-! ### Concrete fixtures used by counterexamples and witnesses -/

/-- A rejection coded INVALID_PRODUCT whose message holds no bracketed
list — the C1 failing input. -/
def stubbornRej : Rejection :=
  { error_code := some "INVALID_PRODUCT", error := none,
    error_message := some "the requested products are invalid" }

/-- A provider answering every attempt with `stubbornRej`. -/
def stubbornOracle : Nat → List String → Resp := fun _ _ => Resp.err stubbornRej

/-- An INVALID_PRODUCT rejection naming auth and identity inside the
bracket, with mixed case and stray spaces. -/
def c4rej : Rejection :=
  { error_code := some "INVALID_PRODUCT", error := none,
    error_message := some "invalid products: [AUTH , Identity] not allowed" }

/-- A provider answering every attempt with `c4rej`. -/
def c4oracle : Nat → List String → Resp := fun _ _ => Resp.err c4rej

/-- A non-negotiable rejection (rate limit). -/
def c9rej : Rejection :=
  { error_code := some "RATE_LIMIT_EXCEEDED", error := none, error_message := none }

/-- A provider answering every attempt with `c9rej`. -/
def c9oracle : Nat → List String → Resp := fun _ _ => Resp.err c9rej

/-- A provider that accepts every request. -/
def okOracle : Nat → List String → Resp := fun _ _ => Resp.ok

/-- Transactions for the C5 counterexample: one 3-unit credit and one
2-unit debit, producing savingsRate 1/3. -/
def c5txs : List Tx := [{ amount := -3, name := "payroll", category := [] },
  { amount := 2, name := "coffee", category := [] }]

/-- Demo transactions for the budget-split witness: one matching
transaction of amount 60 and one of amount 40. -/
def c6txs : List Tx := [{ amount := 60, name := "city grocery", category := [] },
  { amount := 40, name := "movie night", category := ["entertainment"] }]

/-- Demo transactions matching no keyword at all. -/
def c6txsNone : List Tx := [{ amount := 5, name := "zzz", category := ["misc"] }]

/-- A store holding a token for alice only. -/
def c10store : TokenStore := fun v => if v = "alice" then some "tokA" else none

/-! ### Helper lemmas -/

theorem foldl_add_shift (l : List ℚ) (a : ℚ) :
    l.foldl (fun x y => x + y) a = a + l.foldl (fun x y => x + y) 0 := by
  induction l generalizing a with
  | nil => simp
  | cons x xs ih =>
      simp only [List.foldl_cons]
      rw [ih (a + x), ih (0 + x)]
      ring

theorem sumQ_nil : sumQ [] = 0 := rfl

theorem sumQ_cons (x : ℚ) (l : List ℚ) : sumQ (x :: l) = x + sumQ l := by
  simp only [sumQ, List.foldl_cons]
  rw [foldl_add_shift]
  ring

theorem sumQ_nonneg (l : List ℚ) (h : ∀ x ∈ l, 0 ≤ x) : 0 ≤ sumQ l := by
  induction l with
  | nil => simp [sumQ_nil]
  | cons x xs ih =>
      rw [sumQ_cons]
      have hx := h x (List.mem_cons_self x xs)
      have hxs := ih fun y hy => h y (List.mem_cons_of_mem x hy)
      linarith

theorem money_nonneg (q : ℚ) (h : 0 ≤ q) : 0 ≤ money q := by
  unfold money
  have h1 : (0 : ℚ) ≤ q * 100 + 1/2 := by linarith
  have h2 : (0 : ℤ) ≤ ⌊q * 100 + 1/2⌋ := Int.floor_nonneg.mpr h1
  positivity

theorem money_idem (q : ℚ) : money (money q) = money q := by
  unfold money
  have h : ((⌊q * 100 + 1/2⌋ : ℤ) : ℚ) / 100 * 100 + 1/2 =
      ((⌊q * 100 + 1/2⌋ : ℤ) : ℚ) + 1/2 := by
    field_simp
  rw [h, Int.floor_int_add]
  norm_num

theorem twoDecimal_money (q : ℚ) : twoDecimal (money q) := money_idem q

theorem twoDecimal_iff (q : ℚ) : twoDecimal q ↔ ∃ n : ℤ, q = (n : ℚ) / 100 := by
  constructor
  · intro h
    exact ⟨⌊q * 100 + 1/2⌋, h.symm⟩
  · rintro ⟨n, rfl⟩
    unfold twoDecimal money
    have h : ((n : ℚ)) / 100 * 100 + 1/2 = ((n : ℚ)) + 1/2 := by field_simp
    rw [h, Int.floor_int_add]
    norm_num

theorem twoDecimal_zero : twoDecimal 0 := by
  unfold twoDecimal money
  norm_num

theorem twoDecimal_2000 : twoDecimal 2000 := by
  unfold twoDecimal money
  norm_num

theorem clamp01_nonneg (x : ℚ) : 0 ≤ clamp01 x := le_max_left 0 (min 1 x)

theorem clamp01_le_one (x : ℚ) : clamp01 x ≤ 1 :=
  max_le (by norm_num) (min_le_left 1 x)

theorem negPart_nonneg (t : List Tx) :
    0 ≤ money (sumQ ((t.filter (fun x => decide (x.amount < 0))).map (fun x => -x.amount))) := by
  apply money_nonneg
  apply sumQ_nonneg
  intro x hx
  obtain ⟨y, hy, rfl⟩ := List.mem_map.mp hx
  have := (List.mem_filter.mp hy).2
  have hneg : y.amount < 0 := of_decide_eq_true this
  linarith

theorem posPart_nonneg (t : List Tx) :
    0 ≤ money (sumQ ((t.filter (fun x => decide (0 < x.amount))).map (fun x => x.amount))) := by
  apply money_nonneg
  apply sumQ_nonneg
  intro x hx
  obtain ⟨y, hy, rfl⟩ := List.mem_map.mp hx
  have := (List.mem_filter.mp hy).2
  have hpos : 0 < y.amount := of_decide_eq_true this
  linarith

theorem naiveIncome30_nonneg (t : List Tx) : 0 ≤ naiveIncome30 t := negPart_nonneg t

theorem naiveSpend30_nonneg (t : List Tx) : 0 ≤ naiveSpend30 t := posPart_nonneg t

theorem txIncome30_nonneg (t : List Tx) : 0 ≤ txIncome30 t := by
  unfold txIncome30
  split
  · exact posPart_nonneg t
  · exact naiveIncome30_nonneg t

theorem txSpend30_nonneg (t : List Tx) : 0 ≤ txSpend30 t := by
  unfold txSpend30
  split
  · exact negPart_nonneg t
  · exact naiveSpend30_nonneg t

theorem isEmpty_false_of_ne_nil {l : List String} (h : l ≠ []) : l.isEmpty = false := by
  cases l with
  | nil => exact absurd rfl h
  | cons a t => rfl

theorem negotiateGo_head (oracle : Nat → List String → Resp) (fuel k : Nat)
    (products : List String) (h : products ≠ []) :
    ((negotiateGo oracle (fuel + 1) k products).1).head? = some products := by
  have hie := isEmpty_false_of_ne_nil h
  cases hR : oracle k products with
  | ok => simp [negotiateGo, hie, hR]
  | err e =>
      simp only [negotiateGo, hie, hR, Bool.false_eq_true, if_false]
      split
      · split <;> simp
      · split
        · simp
        · simp

theorem negotiateGo_requests_sound (oracle : Nat → List String → Resp) :
    ∀ (fuel k : Nat) (products : List String), products ≠ [] →
      (∀ p ∈ products, p ∈ VALID_PRODUCTS) →
      ∀ req ∈ (negotiateGo oracle fuel k products).1,
        req ≠ [] ∧ ∀ p ∈ req, p ∈ VALID_PRODUCTS := by
  intro fuel
  induction fuel with
  | zero =>
      intro k products _ _ req hreq
      simp [negotiateGo] at hreq
  | succ n ih =>
      intro k products hne hval req hreq
      have hie := isEmpty_false_of_ne_nil hne
      cases hR : oracle k products with
      | ok =>
          simp only [negotiateGo, hie, hR, Bool.false_eq_true, if_false] at hreq
          simp at hreq
          exact hreq ▸ ⟨hne, hval⟩
      | err e =>
          simp only [negotiateGo, hie, hR, Bool.false_eq_true, if_false] at hreq
          split at hreq
          · -- INVALID_PRODUCT branch
            split at hreq
            · simp at hreq
              exact hreq ▸ ⟨hne, hval⟩
            · next hp2 =>
                simp only [List.mem_cons] at hreq
                rcases hreq with rfl | hmem
                · exact ⟨hne, hval⟩
                · refine ih (k + 1) _ ?_ ?_ req hmem
                  · intro hnil
                    rw [hnil] at hp2
                    exact hp2 rfl
                  · intro p hp
                    exact hval p (List.mem_filter.mp hp).1
          · split at hreq
            · -- PRODUCTS_NOT_SUPPORTED / PRODUCTS_NOT_ENABLED branch
              simp only [List.mem_cons] at hreq
              rcases hreq with rfl | hmem
              · exact ⟨hne, hval⟩
              · refine ih (k + 1) _ ?_ ?_ req hmem
                · intro hnil
                  split at hnil
                  · simp at hnil
                  · next hp2 =>
                      rw [hnil] at hp2
                      exact hp2 rfl
                · intro p hp
                  split at hp
                  · have : p = "transactions" := by simpa using hp
                    rw [this]
                    decide
                  · have hmem2 := (List.mem_filter.mp hp).1
                    have : p = "transactions" ∨ p = "auth" := by simpa using hmem2
                    rcases this with rfl | rfl <;> decide
            · -- non-negotiable branch
              simp at hreq
              exact hreq ▸ ⟨hne, hval⟩

theorem filter_not_contains_nil (l : List String) :
    l.filter (fun p => !((([] : List String)).contains p)) = l := by
  induction l with
  | nil => rfl
  | cons a t ih => simp [List.filter, ih, List.contains]

theorem negotiateGo_stubborn (fuel : Nat) :
    ∀ (k : Nat) (products : List String), products ≠ [] →
      negotiateGo stubbornOracle fuel k products =
        (List.replicate fuel products, LoopOut.outOfFuel products) := by
  induction fuel with
  | zero => intro k products _; rfl
  | succ n ih =>
      intro k products hne
      have hie := isEmpty_false_of_ne_nil hne
      have hbad : parseInvalidProducts stubbornRej = [] := by decide
      have hcode : errCode stubbornRej = "INVALID_PRODUCT" := by decide
      have hfilter : products.filter
          (fun p => !((parseInvalidProducts stubbornRej).contains p)) = products := by
        rw [hbad]
        exact filter_not_contains_nil products
      simp only [negotiateGo, hie, Bool.false_eq_true, if_false, stubbornOracle, hcode,
        if_pos rfl, hfilter, ih (k + 1) products hne, isEmpty_false_of_ne_nil hne]
      simp [List.replicate_succ]

theorem initialProducts_ne_nil (prods : Option (List String)) : initialProducts prods ≠ [] := by
  by_cases h : (cleanProducts prods).isEmpty = true
  · simp [initialProducts, h]
  · have h2 : initialProducts prods = cleanProducts prods := by
      simp [initialProducts, h]
    rw [h2]
    intro hnil
    rw [hnil] at h
    exact h rfl

theorem mem_valid_of_contains {p : String} (h : VALID_PRODUCTS.contains p = true) :
    p ∈ VALID_PRODUCTS := by
  simpa using h

theorem initialProducts_valid (prods : Option (List String)) :
    ∀ p ∈ initialProducts prods, p ∈ VALID_PRODUCTS := by
  by_cases h : (cleanProducts prods).isEmpty = true
  · have h2 : initialProducts prods = ["transactions"] := by
      simp [initialProducts, h]
    rw [h2]
    intro p hp
    have hp2 : p = "transactions" := by simpa using hp
    rw [hp2]
    decide
  · have h2 : initialProducts prods = cleanProducts prods := by
      simp [initialProducts, h]
    rw [h2]
    intro p hp
    exact mem_valid_of_contains (List.mem_filter.mp hp).2

theorem negotiateGo_invalid_step (oracle : Nat → List String → Resp)
    (fuel k : Nat) (products : List String) (e : Rejection)
    (hne : products ≠ [])
    (hresp : oracle k products = Resp.err e)
    (hcode : errCode e = "INVALID_PRODUCT")
    (hnext : products.filter (fun p => !((parseInvalidProducts e).contains p)) ≠ []) :
    negotiateGo oracle (fuel + 1) k products =
      (products :: (negotiateGo oracle fuel (k + 1)
          (products.filter (fun p => !((parseInvalidProducts e).contains p)))).1,
        (negotiateGo oracle fuel (k + 1)
          (products.filter (fun p => !((parseInvalidProducts e).contains p)))).2) := by
  have hie := isEmpty_false_of_ne_nil hne
  have hie2 := isEmpty_false_of_ne_nil hnext
  simp only [negotiateGo, hie, Bool.false_eq_true, if_false, hresp, hcode,
    eq_self_iff_true, if_true, hie2]

/-- C1 (code_bug evidence): when the provider answers every attempt with
the same INVALID_PRODUCT rejection whose message carries no parseable
bracket list, `linkTokenCreateSmart` never terminates: the attempt loop
keeps resending the unchanged product set and outruns every finite fuel
bound, because the code caps nothing and the filtered set never shrinks.
The claim that the negotiator terminates within a bounded number of
attempts is therefore false of the code (the spec even recommends a cap
of 4 attempts that the code does not have). -/
theorem linkTokenCreateSmart_unparseable_invalid_diverges (fuel : Nat) :
    (linkTokenCreateSmart stubbornOracle fuel (some PREFERRED_PRODUCTS)).2 =
      NegoResult.diverged PREFERRED_PRODUCTS ∧
    (linkTokenCreateSmart stubbornOracle fuel (some PREFERRED_PRODUCTS)).1 =
      List.replicate fuel PREFERRED_PRODUCTS := by
  have hinit : initialProducts (some PREFERRED_PRODUCTS) = PREFERRED_PRODUCTS := by decide
  have hne : PREFERRED_PRODUCTS ≠ [] := by decide
  constructor <;>
    simp only [linkTokenCreateSmart, hinit, negotiateGo_stubborn fuel 0 PREFERRED_PRODUCTS hne]

/-- C4: on an INVALID_PRODUCT rejection whose message contains a
bracketed comma-separated product list, the next request uses exactly
the current product set minus the bracketed names (which
`parseInvalidProducts` has trimmed and lower-cased, so matching is
case-insensitive against the lower-case product vocabulary). -/
theorem invalid_product_removes_listed (oracle : Nat → List String → Resp)
    (fuel k : Nat) (products : List String) (e : Rejection)
    (hne : products ≠ [])
    (hresp : oracle k products = Resp.err e)
    (hcode : errCode e = "INVALID_PRODUCT")
    (hnext : products.filter (fun p => !((parseInvalidProducts e).contains p)) ≠ []) :
    (negotiateGo oracle (fuel + 1 + 1) k products).1.take 2 =
      [products, products.filter (fun p => !((parseInvalidProducts e).contains p))] := by
  rw [negotiateGo_invalid_step oracle (fuel + 1) k products e hne hresp hcode hnext]
  have hhead := negotiateGo_head oracle fuel (k + 1)
    (products.filter (fun p => !((parseInvalidProducts e).contains p))) hnext
  cases htr : ((negotiateGo oracle (fuel + 1) (k + 1)
      (products.filter (fun p => !((parseInvalidProducts e).contains p)))).1) with
  | nil =>
      rw [htr] at hhead
      simp at hhead
  | cons a t =>
      rw [htr] at hhead
      simp only [List.head?_cons, Option.some.injEq] at hhead
      simp [htr, hhead]

/-- C4 witness: from the product set transactions, auth, identity and a
rejection message naming AUTH and Identity inside brackets (mixed case,
stray spaces), the second request uses exactly the singleton
transactions. -/
theorem invalid_product_removes_listed_witness :
    (["transactions", "auth", "identity"] : List String) ≠ [] ∧
    c4oracle 0 ["transactions", "auth", "identity"] = Resp.err c4rej ∧
    errCode c4rej = "INVALID_PRODUCT" ∧
    (["transactions", "auth", "identity"].filter
      (fun p => !((parseInvalidProducts c4rej).contains p))) ≠ [] ∧
    (negotiateGo c4oracle 2 0 ["transactions", "auth", "identity"]).1.take 2 =
      [["transactions", "auth", "identity"], ["transactions"]] := by
  refine ⟨by decide, rfl, by decide, by decide, ?_⟩
  have h := invalid_product_removes_listed c4oracle 0 0
    ["transactions", "auth", "identity"] c4rej (by decide) rfl (by decide) (by decide)
  have hf : (["transactions", "auth", "identity"].filter
      (fun p => !((parseInvalidProducts c4rej).contains p))) = ["transactions"] := by decide
  rw [hf] at h
  exact h

/-- C9: a rejection whose code (after the JS fallback chain
`e.error_code || e.error || ''`) is none of INVALID_PRODUCT,
PRODUCTS_NOT_SUPPORTED, PRODUCTS_NOT_ENABLED stops the loop at once:
the trace ends with that single request and the very rejection is
propagated; the wrapper then adds no fallback request either. -/
theorem non_negotiable_rejection_propagates :
    (∀ (oracle : Nat → List String → Resp) (fuel k : Nat) (products : List String)
        (e : Rejection), products ≠ [] → oracle k products = Resp.err e →
        errCode e ≠ "INVALID_PRODUCT" → errCode e ≠ "PRODUCTS_NOT_SUPPORTED" →
        errCode e ≠ "PRODUCTS_NOT_ENABLED" →
        negotiateGo oracle (fuel + 1) k products = ([products], LoopOut.propagate e)) ∧
    (∀ (oracle : Nat → List String → Resp) (fuel : Nat) (prods : Option (List String))
        (e : Rejection),
        (negotiateGo oracle fuel 0 (initialProducts prods)).2 = LoopOut.propagate e →
        linkTokenCreateSmart oracle fuel prods =
          ((negotiateGo oracle fuel 0 (initialProducts prods)).1, NegoResult.propagate e)) := by
  constructor
  · intro oracle fuel k products e hne hresp h1 h2 h3
    have hie := isEmpty_false_of_ne_nil hne
    simp only [negotiateGo, hie, Bool.false_eq_true, if_false, hresp]
    rw [if_neg h1, if_neg (by
      intro hor
      rcases hor with h | h
      · exact h2 h
      · exact h3 h)]
  · intro oracle fuel prods e hprop
    cases hr : negotiateGo oracle fuel 0 (initialProducts prods) with
    | mk tr out =>
        rw [hr] at hprop
        simp only at hprop
        simp only [linkTokenCreateSmart, hr, hprop]

/-- C9 witness: a rate-limit rejection on the first attempt is
propagated unmodified after exactly one request. -/
theorem non_negotiable_rejection_propagates_witness :
    (["transactions"] : List String) ≠ [] ∧
    c9oracle 0 ["transactions"] = Resp.err c9rej ∧
    errCode c9rej = "RATE_LIMIT_EXCEEDED" ∧
    negotiateGo c9oracle 1 0 ["transactions"] = ([["transactions"]], LoopOut.propagate c9rej) ∧
    linkTokenCreateSmart c9oracle 1 (some ["transactions"]) =
      ([["transactions"]], NegoResult.propagate c9rej) := by
  refine ⟨by decide, rfl, by decide, ?_, ?_⟩
  · exact non_negotiable_rejection_propagates.1 c9oracle 0 0 ["transactions"] c9rej
      (by decide) rfl (by decide) (by decide) (by decide)
  · have h := non_negotiable_rejection_propagates.2 c9oracle 1 (some ["transactions"]) c9rej
      (by decide)
    rw [h]
    decide

/-- C8: every request the negotiator sends carries a non-empty product
list drawn from the fixed vocabulary; and when the desired products
contain no known entry at all, the first request is the single safe
default product transactions. -/
theorem negotiator_requests_nonempty_valid :
    (∀ (oracle : Nat → List String → Resp) (fuel : Nat) (prods : Option (List String))
        (req : List String), req ∈ (linkTokenCreateSmart oracle fuel prods).1 →
        req ≠ [] ∧ ∀ p ∈ req, p ∈ VALID_PRODUCTS) ∧
    (∀ (oracle : Nat → List String → Resp) (fuel : Nat) (prods : Option (List String)),
        cleanProducts prods = [] → 0 < fuel →
        (linkTokenCreateSmart oracle fuel prods).1.head? = some ["transactions"]) := by
  constructor
  · intro oracle fuel prods req hreq
    have hsound := negotiateGo_requests_sound oracle fuel 0 (initialProducts prods)
      (initialProducts_ne_nil prods) (initialProducts_valid prods)
    cases hr : negotiateGo oracle fuel 0 (initialProducts prods) with
    | mk tr out =>
        rw [hr] at hsound
        simp only at hsound
        cases out with
        | success used =>
            simp only [linkTokenCreateSmart, hr] at hreq
            exact hsound req hreq
        | propagate e =>
            simp only [linkTokenCreateSmart, hr] at hreq
            exact hsound req hreq
        | outOfFuel ps =>
            simp only [linkTokenCreateSmart, hr] at hreq
            exact hsound req hreq
        | loopExit k =>
            simp only [linkTokenCreateSmart, hr] at hreq
            cases hO : oracle k ["transactions"] with
            | ok =>
                rw [hO] at hreq
                simp only [List.mem_append, List.mem_singleton] at hreq
                rcases hreq with hmem | rfl
                · exact hsound req hmem
                · exact ⟨by decide, by decide⟩
            | err e =>
                rw [hO] at hreq
                simp only [List.mem_append, List.mem_singleton] at hreq
                rcases hreq with hmem | rfl
                · exact hsound req hmem
                · exact ⟨by decide, by decide⟩
  · intro oracle fuel prods hclean hf
    obtain ⟨m, rfl⟩ : ∃ m, fuel = m + 1 :=
      ⟨fuel - 1, (Nat.succ_pred_eq_of_pos hf).symm⟩
    have hinit : initialProducts prods = ["transactions"] := by
      unfold initialProducts
      rw [hclean]
      rfl
    have hhead := negotiateGo_head oracle m 0 ["transactions"] (by decide)
    unfold linkTokenCreateSmart
    rw [hinit]
    cases hr : negotiateGo oracle (m + 1) 0 ["transactions"] with
    | mk tr out =>
        rw [hr] at hhead
        simp only at hhead
        cases tr with
        | nil => simp at hhead
        | cons a t =>
            simp only [List.head?_cons, Option.some.injEq] at hhead
            subst hhead
            cases out with
            | success used => simp [hr]
            | propagate e => simp [hr]
            | outOfFuel ps => simp [hr]
            | loopExit k =>
                cases hO : oracle k ["transactions"] with
                | ok => simp [hr, hO]
                | err e => simp [hr, hO]

/-- C8 witness: a provider that accepts everything, one unit of fuel and
a desired list with no known entry: the only request sent is the single
safe default product, non-empty and inside the vocabulary. -/
theorem negotiator_requests_nonempty_valid_witness :
    (["transactions"] : List String) ∈ (linkTokenCreateSmart okOracle 1 (some ["bogus"])).1 ∧
    (["transactions"] : List String) ≠ [] ∧
    (∀ p ∈ (["transactions"] : List String), p ∈ VALID_PRODUCTS) ∧
    cleanProducts (some ["bogus"]) = [] ∧
    (linkTokenCreateSmart okOracle 1 (some ["bogus"])).1.head? = some ["transactions"] := by
  have h1 := negotiator_requests_nonempty_valid.1 okOracle 1 (some ["bogus"])
    ["transactions"] (by decide)
  have h2 := negotiator_requests_nonempty_valid.2 okOracle 1 (some ["bogus"])
    (by decide) (by decide)
  exact ⟨by decide, h1.1, h1.2, by decide, h2⟩

/-- C2: the aggregator first classifies negative amounts (negated) as
income and positive amounts as spend; exactly when that naive income is
below the naive spend AND the raw signed sum is negative it swaps the
two roles; in both branches income30 and spend30 are nonnegative, and
these are the very fields of the KPI report when transactions are
present. -/
theorem sign_disambiguation_two_pass :
    ∀ (t : List Tx),
      txIncome30 t = (if naiveIncome30 t < naiveSpend30 t ∧ rawSum30 t < 0
        then naiveSpend30 t else naiveIncome30 t) ∧
      txSpend30 t = (if naiveIncome30 t < naiveSpend30 t ∧ rawSum30 t < 0
        then naiveIncome30 t else naiveSpend30 t) ∧
      0 ≤ txIncome30 t ∧ 0 ≤ txSpend30 t ∧
      ∀ (acc : Option (List Account)) (liab : Option Liabilities) (inv : Option InvData),
        (buildSummaryKpis acc liab inv (some t)).income30 = txIncome30 t ∧
        (buildSummaryKpis acc liab inv (some t)).spend30 = txSpend30 t := by
  intro t
  exact ⟨rfl, rfl, txIncome30_nonneg t, txSpend30_nonneg t, fun acc liab inv => ⟨rfl, rfl⟩⟩

/-- C3: with all four inputs null the KPI report carries exactly the
documented defaults, in particular the deliberately optimistic
monthlySpend 2000 and savingsRate 0.20. -/
theorem buildSummary_all_null_defaults :
    (buildSummaryKpis none none none none).totalCash = 0 ∧
    (buildSummaryKpis none none none none).totalInvestments = 0 ∧
    (buildSummaryKpis none none none none).totalLiabilities = 0 ∧
    (buildSummaryKpis none none none none).netWorth = 0 ∧
    (buildSummaryKpis none none none none).netCashFlow = 0 ∧
    (buildSummaryKpis none none none none).monthlySpend = 2000 ∧
    (buildSummaryKpis none none none none).savingsRate = 0.20 ∧
    (buildSummaryKpis none none none none).runwayMonths = 0 := by
  have hc : checkingOf none = 0 := by
    norm_num [checkingOf, accountsOf, sumQ, money]
  have hs : savingsOf none = 0 := by
    norm_num [savingsOf, accountsOf, sumQ, money]
  have ho : cashOtherOf none = 0 := by
    norm_num [cashOtherOf, accountsOf, sumQ, money]
  have htc : totalCashOf none = 0 := by
    norm_num [totalCashOf, hc, hs, ho, money]
  refine ⟨htc, rfl, rfl, ?_, rfl, rfl, rfl, ?_⟩
  · show netWorthOf none none none = 0
    norm_num [netWorthOf, htc, totalInvestmentsOf, totalLiabilitiesOf, money]
  · show runwayMonthsOf none none = 0
    rw [runwayMonthsOf, htc]
    norm_num [monthlySpendOf, money]

theorem twoDecimal_totalLiabilitiesOf (liab : Option Liabilities) :
    twoDecimal (totalLiabilitiesOf liab) := by
  cases liab with
  | none => exact twoDecimal_zero
  | some L => exact twoDecimal_money _

theorem twoDecimal_totalInvestmentsOf (inv : Option InvData) :
    twoDecimal (totalInvestmentsOf inv) := by
  cases inv with
  | none => exact twoDecimal_zero
  | some I => exact twoDecimal_money _

theorem twoDecimal_txIncome30 (t : List Tx) : twoDecimal (txIncome30 t) := by
  unfold txIncome30
  split
  · exact twoDecimal_money _
  · exact twoDecimal_money _

theorem twoDecimal_txSpend30 (t : List Tx) : twoDecimal (txSpend30 t) := by
  unfold txSpend30
  split
  · exact twoDecimal_money _
  · exact twoDecimal_money _

theorem twoDecimal_income30Of (tx : Option (List Tx)) : twoDecimal (income30Of tx) := by
  cases tx with
  | none => exact twoDecimal_zero
  | some t => exact twoDecimal_txIncome30 t

theorem twoDecimal_spend30Of (tx : Option (List Tx)) : twoDecimal (spend30Of tx) := by
  cases tx with
  | none => exact twoDecimal_zero
  | some t => exact twoDecimal_txSpend30 t

theorem twoDecimal_netCashFlowOf (tx : Option (List Tx)) : twoDecimal (netCashFlowOf tx) := by
  cases tx with
  | none => exact twoDecimal_zero
  | some t => exact twoDecimal_money _

theorem twoDecimal_monthlySpendOf (tx : Option (List Tx)) : twoDecimal (monthlySpendOf tx) := by
  cases tx with
  | none => exact twoDecimal_2000
  | some t =>
      show twoDecimal (txMonthlySpend t)
      unfold txMonthlySpend
      split
      · exact twoDecimal_2000
      · exact twoDecimal_txSpend30 t

theorem twoDecimal_runwayMonthsOf (acc : Option (List Account)) (tx : Option (List Tx)) :
    twoDecimal (runwayMonthsOf acc tx) := by
  unfold runwayMonthsOf
  split
  · exact twoDecimal_zero
  · exact twoDecimal_money _

/-- C5 counterexample: a 30-day window with one 3-unit credit and one
2-unit debit yields savingsRate 1/3, which is not a 2-decimal value —
the code clamps the savings rate but never passes it through `money`,
so the claim that every numeric field is rounded to 2 decimal places is
false. -/
theorem savingsRate_not_two_decimal :
    (buildSummaryKpis none none none (some c5txs)).savingsRate = 1/3 ∧
    ¬ twoDecimal ((1 : ℚ)/3) := by
  constructor
  · show savingsRateOf (some c5txs) = 1/3
    simp only [savingsRateOf]
    simp [txSavingsRate, txIncome30, txNetCashFlow, txSpend30,
      naiveIncome30, naiveSpend30, rawSum30, c5txs, sumQ, clamp01]
    norm_num [money]
  · unfold twoDecimal money
    norm_num

/-- C5 amended: every numeric KPI field except savingsRate is rounded to
2 decimal places (equivalently, a whole number of cents); savingsRate is
clamped to the unit interval but not rounded. -/
theorem kpis_two_decimal_except_savingsRate :
    ∀ (acc : Option (List Account)) (liab : Option Liabilities)
      (inv : Option InvData) (tx : Option (List Tx)),
      twoDecimal (buildSummaryKpis acc liab inv tx).netWorth ∧
      twoDecimal (buildSummaryKpis acc liab inv tx).totalCash ∧
      twoDecimal (buildSummaryKpis acc liab inv tx).checking ∧
      twoDecimal (buildSummaryKpis acc liab inv tx).savings ∧
      twoDecimal (buildSummaryKpis acc liab inv tx).cashOther ∧
      twoDecimal (buildSummaryKpis acc liab inv tx).totalInvestments ∧
      twoDecimal (buildSummaryKpis acc liab inv tx).totalLiabilities ∧
      twoDecimal (buildSummaryKpis acc liab inv tx).income30 ∧
      twoDecimal (buildSummaryKpis acc liab inv tx).spend30 ∧
      twoDecimal (buildSummaryKpis acc liab inv tx).netCashFlow ∧
      twoDecimal (buildSummaryKpis acc liab inv tx).monthlySpend ∧
      twoDecimal (buildSummaryKpis acc liab inv tx).runwayMonths := by
  intro acc liab inv tx
  exact ⟨twoDecimal_money _, twoDecimal_money _, twoDecimal_money _, twoDecimal_money _,
    twoDecimal_money _, twoDecimal_totalInvestmentsOf inv, twoDecimal_totalLiabilitiesOf liab,
    twoDecimal_income30Of tx, twoDecimal_spend30Of tx, twoDecimal_netCashFlowOf tx,
    twoDecimal_monthlySpendOf tx, twoDecimal_runwayMonthsOf acc tx⟩

/-- C7: savingsRate always lies in the unit interval: the clamped
quotient netCashFlow/income30 when income30 is nonzero, 0 when income30
is zero, and the fixed 0.20 default when the transaction set is
missing. -/
theorem savingsRate_clamped :
    (∀ (acc : Option (List Account)) (liab : Option Liabilities) (inv : Option InvData)
        (tx : Option (List Tx)),
        0 ≤ (buildSummaryKpis acc liab inv tx).savingsRate ∧
        (buildSummaryKpis acc liab inv tx).savingsRate ≤ 1) ∧
    (∀ t : List Tx, txSavingsRate t =
        if txIncome30 t = 0 then 0 else clamp01 (txNetCashFlow t / txIncome30 t)) ∧
    (∀ (acc : Option (List Account)) (liab : Option Liabilities) (inv : Option InvData)
        (t : List Tx),
        (buildSummaryKpis acc liab inv (some t)).savingsRate = txSavingsRate t) ∧
    (∀ (acc : Option (List Account)) (liab : Option Liabilities) (inv : Option InvData),
        (buildSummaryKpis acc liab inv none).savingsRate = 0.20) := by
  refine ⟨?_, fun t => rfl, fun acc liab inv t => rfl, fun acc liab inv => rfl⟩
  intro acc liab inv tx
  show 0 ≤ savingsRateOf tx ∧ savingsRateOf tx ≤ 1
  cases tx with
  | none =>
      show (0 : ℚ) ≤ 0.20 ∧ (0.20 : ℚ) ≤ 1
      norm_num
  | some t =>
      show 0 ≤ txSavingsRate t ∧ txSavingsRate t ≤ 1
      unfold txSavingsRate
      split
      · norm_num
      · exact ⟨clamp01_nonneg _, clamp01_le_one _⟩

/-- C10: the token store maps each user id to its own credential;
storing a credential via the public-token exchange, unlinking, or
deleting a user leaves every other user's stored credential unchanged,
whatever the store contents and whether or not the upstream removal
succeeded. -/
theorem token_store_frame :
    ∀ (store : TokenStore) (u v tok : String) (remoteOk : Bool), v ≠ u →
      getToken (exchangeHandlerStore store u tok) v = getToken store v ∧
      getToken (unlinkHandlerStore store u remoteOk) v = getToken store v ∧
      getToken (userDeleteHandlerStore store u) v = getToken store v := by
  intro store u v tok remoteOk hvu
  refine ⟨?_, ?_, ?_⟩
  · simp [exchangeHandlerStore, setToken, getToken, hvu]
  · unfold unlinkHandlerStore
    cases getToken store u with
    | none => rfl
    | some tk =>
        cases remoteOk with
        | false => rfl
        | true => simp [deleteToken, getToken, hvu]
  · simp [userDeleteHandlerStore, deleteToken, getToken, hvu]

/-- C10 witness: with a store holding a token only for alice, an
exchange for bob, an unlink of bob and a delete of bob all leave
alice's token in place. -/
theorem token_store_frame_witness :
    ("alice" : String) ≠ "bob" ∧
    getToken (exchangeHandlerStore c10store "bob" "t") "alice" = some "tokA" ∧
    getToken (unlinkHandlerStore c10store "bob" true) "alice" = some "tokA" ∧
    getToken (userDeleteHandlerStore c10store "bob") "alice" = some "tokA" := by
  have h := token_store_frame c10store "bob" "alice" "t" true (by decide)
  have hb : getToken c10store "alice" = some "tokA" := by decide
  exact ⟨by decide, h.1.trans hb, h.2.1.trans hb, h.2.2.trans hb⟩

/-- C6 (modelled from the spec; the budget-split variant is not under
src/): the budget split classifies each transaction into
Needs/Wants/Savings by keyword match against merchant name and category
tags, sums each bucket and reports it as a percentage of the classified
total; the three percentages sum to 100 whenever something was
classified, and when no transaction matched any keyword the denominator
defaults to 1 and every percentage is 0. -/
theorem budget_split_reports_percentages :
    ∀ (nk wk sk : List String) (txs : List Tx),
      (budgetSplit nk wk sk txs).needsPct =
        100 * bucketNeeds nk wk sk txs / budgetDenom nk wk sk txs ∧
      (budgetSplit nk wk sk txs).wantsPct =
        100 * bucketWants nk wk sk txs / budgetDenom nk wk sk txs ∧
      (budgetSplit nk wk sk txs).savingsPct =
        100 * bucketSavings nk wk sk txs / budgetDenom nk wk sk txs ∧
      (classifiedTotal nk wk sk txs ≠ 0 →
        (budgetSplit nk wk sk txs).needsPct + (budgetSplit nk wk sk txs).wantsPct +
          (budgetSplit nk wk sk txs).savingsPct = 100) ∧
      ((∀ t ∈ txs, matchesAny nk t = false ∧ matchesAny wk t = false ∧
          matchesAny sk t = false) →
        budgetDenom nk wk sk txs = 1 ∧ (budgetSplit nk wk sk txs).needsPct = 0 ∧
        (budgetSplit nk wk sk txs).wantsPct = 0 ∧ (budgetSplit nk wk sk txs).savingsPct = 0) := by
  intro nk wk sk txs
  refine ⟨rfl, rfl, rfl, ?_, ?_⟩
  · intro hT
    have hden : budgetDenom nk wk sk txs = classifiedTotal nk wk sk txs := if_neg hT
    show 100 * bucketNeeds nk wk sk txs / budgetDenom nk wk sk txs +
      100 * bucketWants nk wk sk txs / budgetDenom nk wk sk txs +
      100 * bucketSavings nk wk sk txs / budgetDenom nk wk sk txs = 100
    rw [hden, div_add_div_same, div_add_div_same, div_eq_iff hT]
    unfold classifiedTotal
    ring
  · intro hnone
    have hn : bucketNeeds nk wk sk txs = 0 := by
      unfold bucketNeeds
      have hfil : txs.filter (fun t => matchesAny nk t) = [] := by
        rw [List.filter_eq_nil_iff]
        intro t ht
        simp [(hnone t ht).1]
      rw [hfil]
      rfl
    have hw : bucketWants nk wk sk txs = 0 := by
      unfold bucketWants
      have hfil : txs.filter (fun t => !matchesAny nk t && matchesAny wk t) = [] := by
        rw [List.filter_eq_nil_iff]
        intro t ht
        simp [(hnone t ht).2.1]
      rw [hfil]
      rfl
    have hs : bucketSavings nk wk sk txs = 0 := by
      unfold bucketSavings
      have hfil : txs.filter
          (fun t => !matchesAny nk t && !matchesAny wk t && matchesAny sk t) = [] := by
        rw [List.filter_eq_nil_iff]
        intro t ht
        simp [(hnone t ht).2.2]
      rw [hfil]
      rfl
    have hT : classifiedTotal nk wk sk txs = 0 := by
      unfold classifiedTotal
      rw [hn, hw, hs]
      ring
    have hden : budgetDenom nk wk sk txs = 1 := if_pos hT
    refine ⟨hden, ?_, ?_, ?_⟩
    · show 100 * bucketNeeds nk wk sk txs / budgetDenom nk wk sk txs = 0
      rw [hn]
      simp
    · show 100 * bucketWants nk wk sk txs / budgetDenom nk wk sk txs = 0
      rw [hw]
      simp
    · show 100 * bucketSavings nk wk sk txs / budgetDenom nk wk sk txs = 0
      rw [hs]
      simp

/-- C6 witness: on the demo transactions one entry is classified as
Needs (amount 60) and one as Wants (amount 40), the total 100 is
nonzero and the three percentages sum to 100; on keyword lists nothing
matches, the denominator defaults to 1. -/
theorem budget_split_reports_percentages_witness :
    classifiedTotal ["grocery"] ["movie"] ["transfer"] c6txs ≠ 0 ∧
    (budgetSplit ["grocery"] ["movie"] ["transfer"] c6txs).needsPct +
      (budgetSplit ["grocery"] ["movie"] ["transfer"] c6txs).wantsPct +
      (budgetSplit ["grocery"] ["movie"] ["transfer"] c6txs).savingsPct = 100 ∧
    (∀ t ∈ c6txsNone, matchesAny ["qq"] t = false ∧ matchesAny ["rr"] t = false ∧
      matchesAny ["ss"] t = false) ∧
    budgetDenom ["qq"] ["rr"] ["ss"] c6txsNone = 1 := by
  have hm1 : matchesAny ["grocery"]
      { amount := 60, name := "city grocery", category := [] } = true := by decide
  have hm2 : matchesAny ["grocery"]
      { amount := 40, name := "movie night", category := ["entertainment"] } = false := by decide
  have hm3 : matchesAny ["movie"]
      { amount := 60, name := "city grocery", category := [] } = false := by decide
  have hm4 : matchesAny ["movie"]
      { amount := 40, name := "movie night", category := ["entertainment"] } = true := by decide
  have hm5 : matchesAny ["transfer"]
      { amount := 60, name := "city grocery", category := [] } = false := by decide
  have hm6 : matchesAny ["transfer"]
      { amount := 40, name := "movie night", category := ["entertainment"] } = false := by decide
  have hT : classifiedTotal ["grocery"] ["movie"] ["transfer"] c6txs ≠ 0 := by
    have h1 : bucketNeeds ["grocery"] ["movie"] ["transfer"] c6txs = 60 := by
      norm_num [bucketNeeds, c6txs, sumQ, List.filter, hm1, hm2]
    have h2 : bucketWants ["grocery"] ["movie"] ["transfer"] c6txs = 40 := by
      norm_num [bucketWants, c6txs, sumQ, List.filter, hm1, hm2, hm3, hm4]
    have h3 : bucketSavings ["grocery"] ["movie"] ["transfer"] c6txs = 0 := by
      norm_num [bucketSavings, c6txs, sumQ, List.filter, hm1, hm2, hm3, hm4, hm5, hm6]
    unfold classifiedTotal
    rw [h1, h2, h3]
    norm_num
  exact ⟨hT,
    (budget_split_reports_percentages ["grocery"] ["movie"] ["transfer"] c6txs).2.2.2.1 hT,
    by decide,
    ((budget_split_reports_percentages ["qq"] ["rr"] ["ss"] c6txsNone).2.2.2.2 (by decide)).1⟩

end Activ
